import Mathlib

/-!
Verification development for the sphere-icon generator
(`generate_spheres.py`).  The per-pixel shading kernel is embedded over the
real numbers (Python floats are idealised as exact reals; `math.sqrt` becomes
`Real.sqrt`), Python `int()` conversion becomes truncation toward zero, and
the hex-string colour parser together with the batch driver's skip-on-failure
loop are embedded as computable functions on `List Char` / entry lists.
-/

/-- Python `int(r)` conversion: truncation toward zero
(floor for non-negative arguments, ceiling for negative ones). -/
noncomputable def pyInt (r : ℝ) : ℤ :=
  if 0 ≤ r then ⌊r⌋ else ⌈r⌉

/-- `IMG_SIZE = 128` from the configuration block. -/
def IMG_SIZE : ℕ := 128

/-- `RADIUS = 60.0` from the configuration block. -/
noncomputable def RADIUS : ℝ := 60.0

/-- `CENTER = 63.5` from the configuration block. -/
noncomputable def CENTER : ℝ := 63.5

/-- Length of the raw light vector `(-0.5, -0.5, 0.8)`:
`len_l = math.sqrt(LX*LX + LY*LY + LZ*LZ)`. -/
noncomputable def len_l : ℝ :=
  Real.sqrt ((-0.5) * (-0.5) + (-0.5) * (-0.5) + 0.8 * 0.8)

/-- Normalised light direction, x component: `LX = -0.5 / len_l`. -/
noncomputable def LX : ℝ := -0.5 / len_l

/-- Normalised light direction, y component: `LY = -0.5 / len_l`. -/
noncomputable def LY : ℝ := -0.5 / len_l

/-- Normalised light direction, z component: `LZ = 0.8 / len_l`. -/
noncomputable def LZ : ℝ := 0.8 / len_l

/-- Sphere height at planar offset with squared distance `dsq`:
`z = math.sqrt(RADIUS*RADIUS - dist_sq)`. -/
noncomputable def zOf (dsq : ℝ) : ℝ :=
  Real.sqrt (RADIUS * RADIUS - dsq)

/-- Diffuse term at planar offset `(dx, dy)`:
`diffuse = max(0, nx*LX + ny*LY + nz*LZ)` with
`nx = dx/RADIUS`, `ny = dy/RADIUS`, `nz = z/RADIUS`. -/
noncomputable def diffuseOf (dx dy : ℝ) : ℝ :=
  max 0 ((dx / RADIUS) * LX + (dy / RADIUS) * LY +
    (zOf (dx * dx + dy * dy) / RADIUS) * LZ)

/-- Specular term (Phong) at planar offset `(dx, dy)`: zero unless
`diffuse > 0` and `rz = 2*diffuse*nz - LZ > 0`, in which case `rz ** 20`. -/
noncomputable def specularOf (dx dy : ℝ) : ℝ :=
  if 0 < diffuseOf dx dy then
    (if 0 < 2 * diffuseOf dx dy * (zOf (dx * dx + dy * dy) / RADIUS) - LZ then
      (2 * diffuseOf dx dy * (zOf (dx * dx + dy * dy) / RADIUS) - LZ) ^ 20
    else 0)
  else 0

/-- Combined light intensity: `light_intensity = ambient + (diffuse * 0.7)`
with `ambient = 0.3`. -/
noncomputable def lightIntensityOf (dx dy : ℝ) : ℝ :=
  0.3 + diffuseOf dx dy * 0.7

/-- One colour channel of an on-sphere pixel:
`c = int(c_base * light_intensity + specular * 255 * 0.4)` followed by the
clamp `c = min(255, max(0, c))`. -/
noncomputable def channelOf (base : ℤ) (dx dy : ℝ) : ℤ :=
  min 255 (max 0
    (pyInt ((base : ℝ) * lightIntensityOf dx dy + specularOf dx dy * 255 * 0.4)))

/-- Alpha of an on-sphere pixel: `alpha = 255` unless
`edge_dist = RADIUS - math.sqrt(dist_sq)` is below `1.0`, in which case
`alpha = int(255 * edge_dist)`. -/
noncomputable def alphaOf (dx dy : ℝ) : ℤ :=
  if RADIUS - Real.sqrt (dx * dx + dy * dy) < 1.0 then
    pyInt (255 * (RADIUS - Real.sqrt (dx * dx + dy * dy)))
  else 255

/-- An RGBA pixel of the output buffer (each field a Python int). -/
structure Pixel where
  r : ℤ
  g : ℤ
  b : ℤ
  a : ℤ

/-- Squared planar distance of pixel `(x, y)` from the sphere centre:
`dist_sq = dx*dx + dy*dy` with `dx = x - CENTER`, `dy = y - CENTER`. -/
noncomputable def distSq (x y : ℕ) : ℝ :=
  ((x : ℝ) - CENTER) * ((x : ℝ) - CENTER) +
  ((y : ℝ) - CENTER) * ((y : ℝ) - CENTER)

/-- The loop body of `generate_sphere` for image coordinate `(x, y)`:
`none` when the pixel is skipped by the `dist_sq > RADIUS * RADIUS` test
(left at its initial value), `some` of the computed shading otherwise. -/
noncomputable def shadePixel (rgb : ℤ × ℤ × ℤ) (x y : ℕ) : Option Pixel :=
  if distSq x y > RADIUS * RADIUS then none
  else some ⟨channelOf rgb.1 ((x : ℝ) - CENTER) ((y : ℝ) - CENTER),
             channelOf rgb.2.1 ((x : ℝ) - CENTER) ((y : ℝ) - CENTER),
             channelOf rgb.2.2 ((x : ℝ) - CENTER) ((y : ℝ) - CENTER),
             alphaOf ((x : ℝ) - CENTER) ((y : ℝ) - CENTER)⟩

/-- The pixel buffer returned by `generate_sphere`: the image starts as
`Image.new('RGBA', ..., (0, 0, 0, 0))` and on-sphere pixels are overwritten
by the loop body. -/
noncomputable def generate_sphere (rgb : ℤ × ℤ × ℤ) (x y : ℕ) : Pixel :=
  (shadePixel rgb x y).getD ⟨0, 0, 0, 0⟩

/-- Alpha as a function of an arbitrary planar offset from the centre,
including the off-sphere case (initial alpha 0); factored out of the loop
body for the edge-monotonicity property. -/
noncomputable def alphaAtOffset (dx dy : ℝ) : ℤ :=
  if dx * dx + dy * dy > RADIUS * RADIUS then 0 else alphaOf dx dy

/-- Colour channel recomputed with the specular term omitted (the spec's
pre-specular intensity of a pixel). -/
noncomputable def channelNoSpec (base : ℤ) (dx dy : ℝ) : ℤ :=
  min 255 (max 0 (pyInt ((base : ℝ) * lightIntensityOf dx dy)))

/-- Pre-specular combined intensity R+G+B of a pixel. -/
noncomputable def preSpecularSum (rgb : ℤ × ℤ × ℤ) (x y : ℕ) : ℤ :=
  channelNoSpec rgb.1 ((x : ℝ) - CENTER) ((y : ℝ) - CENTER) +
  channelNoSpec rgb.2.1 ((x : ℝ) - CENTER) ((y : ℝ) - CENTER) +
  channelNoSpec rgb.2.2 ((x : ℝ) - CENTER) ((y : ℝ) - CENTER)

/-- Hexadecimal value of one character, as accepted by Python `int(c, 16)`. -/
def hexVal (c : Char) : Option ℕ :=
  let n := c.toNat
  if 48 ≤ n ∧ n ≤ 57 then some (n - 48)
  else if 97 ≤ n ∧ n ≤ 102 then some (n - 87)
  else if 65 ≤ n ∧ n ≤ 70 then some (n - 55)
  else none

/-- Whitespace characters stripped by Python `int` before parsing. -/
def isPySpace (c : Char) : Bool :=
  c = ' ' ∨ c = '\t' ∨ c = '\n' ∨ c = '\r' ∨ c = '\x0b' ∨ c = '\x0c'

/-- Value of a nonempty all-hex-digit run, most significant digit first. -/
def hexDigitsVal (l : List Char) : Option ℕ :=
  if l = [] then none
  else
    l.foldl (fun acc c =>
      match acc, hexVal c with
      | some a, some d => some (16 * a + d)
      | _, _ => none) (some 0)

/-- Python `int(s, 16)` on the short slices used by `hex_to_rgb`:
surrounding whitespace is stripped, an optional single sign is accepted,
and the remainder must be a nonempty run of hex digits.  (The `0x` prefix
and digit-group underscores of full Python `int` need at least three
characters and so cannot occur in the two-character slices parsed here.) -/
def pyIntBase16 (l : List Char) : Option ℤ :=
  let t := ((l.dropWhile isPySpace).reverse.dropWhile isPySpace).reverse
  match t with
  | [] => none
  | c :: rest =>
    if c = '+' then (hexDigitsVal rest).map (fun n => (n : ℤ))
    else if c = '-' then (hexDigitsVal rest).map (fun n => -(n : ℤ))
    else (hexDigitsVal t).map (fun n => (n : ℤ))

/-- Python slice `l[i:i+n]`. -/
def pySlice (l : List Char) (i n : ℕ) : List Char :=
  (l.drop i).take n

/-- `hex_to_rgb`: strips every leading `#` (Python `lstrip('#')`), then
parses the slices `[0:2]`, `[2:4]`, `[4:6]` with `int(-, 16)`; `none` models
the `ValueError` escaping the function when a slice fails to parse. -/
def hex_to_rgb (l : List Char) : Option (ℤ × ℤ × ℤ) :=
  let s := l.dropWhile (fun c => c = '#')
  match pyIntBase16 (pySlice s 0 2), pyIntBase16 (pySlice s 2 2),
        pyIntBase16 (pySlice s 4 2) with
  | some r, some g, some b => some (r, g, b)
  | _, _, _ => none

/-- One record of the input JSON list: the fields `main` reads, each possibly
absent. -/
structure Entry where
  itemID : Option ℤ
  hex : Option (List Char)

/-- The body of the loop in `main` for one entry: `some (id, rgb)` when the
entry passes the `item_id is not None and hex_color` guard and
`hex_to_rgb` succeeds (the entry is processed and counted), `none` when the
entry is skipped, including the case where the `except` clause catches the
parse failure. -/
def entryResult (e : Entry) : Option (ℤ × (ℤ × ℤ × ℤ)) :=
  match e.itemID, e.hex with
  | some id, some h =>
      if h = [] then none
      else (hex_to_rgb h).map (fun rgb => (id, rgb))
  | _, _ => none

/-- The loop of `main` over the entry list: every entry is visited in order
and the skipped ones are dropped, so processing continues past failures. -/
def processEntries (l : List Entry) : List (ℤ × (ℤ × ℤ × ℤ)) :=
  l.filterMap entryResult

/-- The per-channel output formula exactly as the specification words it:
clamp(int(base * (0.3 + 0.7*diffuse) + specular * 255 * 0.4), 0, 255),
where diffuse = max(0, N.L) for the unit normal
N = (dx/radius, dy/radius, z/radius) and normalized light L, and
specular = Rz^20 if diffuse > 0 and Rz = 2*diffuse*N.z - L.z > 0, else 0. -/
noncomputable def specChannelFormula (base : ℤ) (dx dy : ℝ) : ℤ :=
  max 0 (min 255 (pyInt ((base : ℝ) *
      (0.3 + 0.7 * max 0 ((dx / 60.0) * LX + (dy / 60.0) * LY +
        (Real.sqrt (60.0 * 60.0 - (dx * dx + dy * dy)) / 60.0) * LZ)) +
    (if 0 < max 0 ((dx / 60.0) * LX + (dy / 60.0) * LY +
          (Real.sqrt (60.0 * 60.0 - (dx * dx + dy * dy)) / 60.0) * LZ) ∧
        0 < 2 * max 0 ((dx / 60.0) * LX + (dy / 60.0) * LY +
            (Real.sqrt (60.0 * 60.0 - (dx * dx + dy * dy)) / 60.0) * LZ) *
          (Real.sqrt (60.0 * 60.0 - (dx * dx + dy * dy)) / 60.0) - LZ then
      (2 * max 0 ((dx / 60.0) * LX + (dy / 60.0) * LY +
          (Real.sqrt (60.0 * 60.0 - (dx * dx + dy * dy)) / 60.0) * LZ) *
        (Real.sqrt (60.0 * 60.0 - (dx * dx + dy * dy)) / 60.0) - LZ) ^ 20
    else 0) * 255 * 0.4)))

/-! Helper lemmas. -/

/-- Truncation toward zero agrees with the floor on non-negative reals. -/
theorem pyInt_of_nonneg (r : ℝ) (h : 0 ≤ r) : pyInt r = ⌊r⌋ := by
  unfold pyInt
  exact if_pos h

/-- Upper square bound transfers to an upper bound on the square root. -/
theorem sqrt_lt_num (a b : ℝ) (ha : 0 ≤ a) (hb : 0 ≤ b) (h : a < b * b) :
    Real.sqrt a < b := by
  calc Real.sqrt a < Real.sqrt (b * b) := Real.sqrt_lt_sqrt ha h
  _ = b := Real.sqrt_mul_self hb

/-- Lower square bound transfers to a lower bound on the square root. -/
theorem num_lt_sqrt (a b : ℝ) (hb : 0 ≤ b) (h : b * b < a) :
    b < Real.sqrt a := by
  calc b = Real.sqrt (b * b) := (Real.sqrt_mul_self hb).symm
  _ < Real.sqrt a := Real.sqrt_lt_sqrt (by nlinarith) h

/-- Planar distance at most the radius is the loop's squared-distance test. -/
theorem sqrt_le_RADIUS_iff (s : ℝ) :
    Real.sqrt s ≤ RADIUS ↔ s ≤ RADIUS * RADIUS := by
  unfold RADIUS
  constructor
  · intro h
    rcases le_or_lt s 0 with hs | hs
    · nlinarith
    · nlinarith [Real.sq_sqrt hs.le, Real.sqrt_nonneg s]
  · intro h
    have h60 : Real.sqrt (60.0 * 60.0) = (60.0 : ℝ) :=
      Real.sqrt_mul_self (by norm_num)
    calc Real.sqrt s ≤ Real.sqrt (60.0 * 60.0) := Real.sqrt_le_sqrt h
    _ = (60.0 : ℝ) := h60

/-- Planar distance beyond the radius is the loop's skip condition. -/
theorem RADIUS_lt_sqrt_iff (s : ℝ) :
    RADIUS < Real.sqrt s ↔ RADIUS * RADIUS < s := by
  rw [lt_iff_not_le, lt_iff_not_le, sqrt_le_RADIUS_iff]

/-- On-sphere pixels take the computed-shading branch of the loop body. -/
theorem generate_sphere_on (rgb : ℤ × ℤ × ℤ) (x y : ℕ)
    (h : distSq x y ≤ RADIUS * RADIUS) :
    generate_sphere rgb x y =
      ⟨channelOf rgb.1 ((x : ℝ) - CENTER) ((y : ℝ) - CENTER),
       channelOf rgb.2.1 ((x : ℝ) - CENTER) ((y : ℝ) - CENTER),
       channelOf rgb.2.2 ((x : ℝ) - CENTER) ((y : ℝ) - CENTER),
       alphaOf ((x : ℝ) - CENTER) ((y : ℝ) - CENTER)⟩ := by
  unfold generate_sphere shadePixel
  rw [if_neg (not_lt.mpr h)]
  rfl

/-- Off-sphere pixels keep the buffer's initial value. -/
theorem generate_sphere_off (rgb : ℤ × ℤ × ℤ) (x y : ℕ)
    (h : RADIUS * RADIUS < distSq x y) :
    generate_sphere rgb x y = ⟨0, 0, 0, 0⟩ := by
  unfold generate_sphere shadePixel
  rw [if_pos h]
  rfl

/-- The clamp of the loop body stays inside the byte range. -/
theorem channelOf_bounds (base : ℤ) (dx dy : ℝ) :
    0 ≤ channelOf base dx dy ∧ channelOf base dx dy ≤ 255 := by
  unfold channelOf
  exact ⟨le_min (by norm_num) (le_max_left 0 _), min_le_left _ _⟩

/-- C10: for every base color, every off-sphere pixel (planar distance from
center strictly greater than radius) of the returned buffer is exactly
(0,0,0,0), because the buffer is created fully zeroed and off-sphere pixels
are never written. -/
theorem c10_off_sphere_pixel_is_zeroed (rgb : ℤ × ℤ × ℤ) (x y : ℕ)
    (h : RADIUS < Real.sqrt (distSq x y)) :
    generate_sphere rgb x y = ⟨0, 0, 0, 0⟩ :=
  generate_sphere_off rgb x y ((RADIUS_lt_sqrt_iff _).mp h)

/-- Witness for C10 at base color (0,0,0) and pixel (5,5). -/
theorem c10_off_sphere_pixel_is_zeroed_witness :
    generate_sphere (0, 0, 0) 5 5 = ⟨0, 0, 0, 0⟩ := by
  apply c10_off_sphere_pixel_is_zeroed
  have h : distSq 5 5 = 6844.5 := by
    unfold distSq CENTER
    norm_num
  rw [h]
  exact num_lt_sqrt 6844.5 RADIUS (by unfold RADIUS; norm_num)
    (by unfold RADIUS; norm_num)

/-- C2: exactly the pixels with planar distance from the center at most the
radius get a computed shading written to the buffer, and every pixel with
planar distance strictly greater than the radius has output alpha exactly
0. -/
theorem c2_on_sphere_written_off_sphere_alpha_zero (rgb : ℤ × ℤ × ℤ)
    (x y : ℕ) :
    ((shadePixel rgb x y).isSome ↔ Real.sqrt (distSq x y) ≤ RADIUS) ∧
    (RADIUS < Real.sqrt (distSq x y) → (generate_sphere rgb x y).a = 0) := by
  constructor
  · rw [sqrt_le_RADIUS_iff]
    unfold shadePixel
    split_ifs with h
    · simp only [Option.isSome_none, Bool.false_eq_true, false_iff]
      exact not_le.mpr h
    · simp only [Option.isSome_some, true_iff]
      exact not_lt.mp h
  · intro h
    rw [generate_sphere_off rgb x y ((RADIUS_lt_sqrt_iff _).mp h)]

/-- Witness for C2 at base color (1,2,3) and pixel (120,5). -/
theorem c2_on_sphere_written_off_sphere_alpha_zero_witness :
    (generate_sphere (1, 2, 3) 120 5).a = 0 := by
  apply (c2_on_sphere_written_off_sphere_alpha_zero (1, 2, 3) 120 5).2
  have h : distSq 120 5 = 6614.5 := by
    unfold distSq CENTER
    norm_num
  rw [h]
  exact num_lt_sqrt 6614.5 RADIUS (by unfold RADIUS; norm_num)
    (by unfold RADIUS; norm_num)

/-- C8: generate_sphere is total over all valid Color inputs: the radius is
a nonzero constant and, on every on-sphere pixel, the sqrt argument
radius^2 - dist_sq is non-negative (so the surface height is a real square
root) and the loop body produces a pixel. -/
theorem c8_generate_sphere_total (rgb : ℤ × ℤ × ℤ)
    (h1 : 0 ≤ rgb.1 ∧ rgb.1 ≤ 255) (h2 : 0 ≤ rgb.2.1 ∧ rgb.2.1 ≤ 255)
    (h3 : 0 ≤ rgb.2.2 ∧ rgb.2.2 ≤ 255) :
    (RADIUS : ℝ) ≠ 0 ∧
    ∀ x y : ℕ, distSq x y ≤ RADIUS * RADIUS →
      0 ≤ RADIUS * RADIUS - distSq x y ∧
      zOf (distSq x y) ^ 2 = RADIUS * RADIUS - distSq x y ∧
      (shadePixel rgb x y).isSome := by
  refine ⟨by unfold RADIUS; norm_num, fun x y h => ⟨by linarith, ?_, ?_⟩⟩
  · unfold zOf
    exact Real.sq_sqrt (by linarith)
  · unfold shadePixel
    rw [if_neg (not_lt.mpr h)]
    rfl

/-- Witness for C8 at base color (255,107,53) and pixel (63,63). -/
theorem c8_generate_sphere_total_witness :
    distSq 63 63 ≤ RADIUS * RADIUS ∧
    (0 ≤ RADIUS * RADIUS - distSq 63 63 ∧
     zOf (distSq 63 63) ^ 2 = RADIUS * RADIUS - distSq 63 63 ∧
     (shadePixel (255, 107, 53) 63 63).isSome) := by
  have hd : distSq 63 63 ≤ RADIUS * RADIUS := by
    unfold distSq CENTER RADIUS
    norm_num
  exact ⟨hd, (c8_generate_sphere_total (255, 107, 53) (by norm_num)
    (by norm_num) (by norm_num)).2 63 63 hd⟩

/-- C6: for every base color with channels in [0,255] and every pixel of the
output buffer, each emitted R, G and B channel value lies in [0,255]. -/
theorem c6_channels_in_byte_range (r g b : ℤ)
    (hr : 0 ≤ r ∧ r ≤ 255) (hg : 0 ≤ g ∧ g ≤ 255) (hb : 0 ≤ b ∧ b ≤ 255) :
    ∀ x y : ℕ,
      (0 ≤ (generate_sphere (r, g, b) x y).r ∧
        (generate_sphere (r, g, b) x y).r ≤ 255) ∧
      (0 ≤ (generate_sphere (r, g, b) x y).g ∧
        (generate_sphere (r, g, b) x y).g ≤ 255) ∧
      (0 ≤ (generate_sphere (r, g, b) x y).b ∧
        (generate_sphere (r, g, b) x y).b ≤ 255) := by
  intro x y
  rcases le_or_lt (distSq x y) (RADIUS * RADIUS) with h | h
  · rw [generate_sphere_on (r, g, b) x y h]
    exact ⟨channelOf_bounds _ _ _, channelOf_bounds _ _ _,
      channelOf_bounds _ _ _⟩
  · rw [generate_sphere_off (r, g, b) x y h]
    norm_num

/-- Witness for C6 at the specular-boosted base color (255,255,255) and
pixel (63,63). -/
theorem c6_channels_in_byte_range_witness :
    (0 ≤ (generate_sphere (255, 255, 255) 63 63).r ∧
      (generate_sphere (255, 255, 255) 63 63).r ≤ 255) ∧
    (0 ≤ (generate_sphere (255, 255, 255) 63 63).g ∧
      (generate_sphere (255, 255, 255) 63 63).g ≤ 255) ∧
    (0 ≤ (generate_sphere (255, 255, 255) 63 63).b ∧
      (generate_sphere (255, 255, 255) 63 63).b ≤ 255) :=
  c6_channels_in_byte_range 255 255 255 (by norm_num) (by norm_num)
    (by norm_num) 63 63

/-- The two clamp orders agree because the bounds are ordered. -/
theorem clamp_comm (v : ℤ) : min 255 (max 0 v) = max 0 (min 255 v) := by
  omega

/-- The nested specular conditional of the loop body equals the
conjunction-guarded form of the specification. -/
theorem specularOf_eq_cond (dx dy : ℝ) :
    specularOf dx dy =
      (if 0 < diffuseOf dx dy ∧
          0 < 2 * diffuseOf dx dy * (zOf (dx * dx + dy * dy) / RADIUS) - LZ
        then (2 * diffuseOf dx dy * (zOf (dx * dx + dy * dy) / RADIUS) - LZ) ^ 20
        else 0) := by
  unfold specularOf
  split_ifs with h1 h2 h3 <;> first | rfl | tauto

/-- The per-channel loop body computes exactly the specification's channel
formula. -/
theorem channelOf_eq_specChannelFormula (base : ℤ) (dx dy : ℝ) :
    channelOf base dx dy = specChannelFormula base dx dy := by
  unfold channelOf specChannelFormula lightIntensityOf
  rw [specularOf_eq_cond]
  unfold diffuseOf zOf RADIUS
  rw [clamp_comm]
  congr 2
  split_ifs with h <;> ring_nf

/-- C1: for every on-sphere pixel (planar distance from center at most the
radius) and every base color with channels in [0,255], each output RGB
channel equals clamp(int(base * (0.3 + 0.7*diffuse) + specular * 255 * 0.4),
0, 255), with diffuse = max(0, N.L) for the unit normal
N = (dx/radius, dy/radius, z/radius) and normalized light L, and
specular = Rz^20 when diffuse > 0 and Rz = 2*diffuse*N.z - L.z > 0, else
specular = 0. -/
theorem c1_on_sphere_channel_formula (r g b : ℤ)
    (hr : 0 ≤ r ∧ r ≤ 255) (hg : 0 ≤ g ∧ g ≤ 255) (hb : 0 ≤ b ∧ b ≤ 255)
    (x y : ℕ) (hon : Real.sqrt (distSq x y) ≤ RADIUS) :
    (generate_sphere (r, g, b) x y).r =
      specChannelFormula r ((x : ℝ) - CENTER) ((y : ℝ) - CENTER) ∧
    (generate_sphere (r, g, b) x y).g =
      specChannelFormula g ((x : ℝ) - CENTER) ((y : ℝ) - CENTER) ∧
    (generate_sphere (r, g, b) x y).b =
      specChannelFormula b ((x : ℝ) - CENTER) ((y : ℝ) - CENTER) := by
  rw [generate_sphere_on (r, g, b) x y ((sqrt_le_RADIUS_iff _).mp hon)]
  exact ⟨channelOf_eq_specChannelFormula r _ _,
    channelOf_eq_specChannelFormula g _ _,
    channelOf_eq_specChannelFormula b _ _⟩

/-- Witness for C1 at base color (255,107,53) and pixel (63,63). -/
theorem c1_on_sphere_channel_formula_witness :
    (generate_sphere (255, 107, 53) 63 63).r =
      specChannelFormula 255 ((63 : ℝ) - CENTER) ((63 : ℝ) - CENTER) ∧
    (generate_sphere (255, 107, 53) 63 63).g =
      specChannelFormula 107 ((63 : ℝ) - CENTER) ((63 : ℝ) - CENTER) ∧
    (generate_sphere (255, 107, 53) 63 63).b =
      specChannelFormula 53 ((63 : ℝ) - CENTER) ((63 : ℝ) - CENTER) := by
  have hon : Real.sqrt (distSq 63 63) ≤ RADIUS := by
    apply (sqrt_le_RADIUS_iff _).mpr
    unfold distSq CENTER RADIUS
    norm_num
  have h := c1_on_sphere_channel_formula 255 107 53 (by norm_num)
    (by norm_num) (by norm_num) 63 63 hon
  have hc : ((63 : ℕ) : ℝ) = (63 : ℝ) := by norm_num
  rw [hc] at h
  exact h

/-- The diffuse term is clamped below by zero. -/
theorem diffuseOf_nonneg (dx dy : ℝ) : 0 ≤ diffuseOf dx dy :=
  le_max_left 0 _

/-- The light intensity never falls below the ambient floor. -/
theorem lightIntensityOf_ge (dx dy : ℝ) : 0.3 ≤ lightIntensityOf dx dy := by
  unfold lightIntensityOf
  nlinarith [diffuseOf_nonneg dx dy]

/-- The specular term is non-negative. -/
theorem specularOf_nonneg (dx dy : ℝ) : 0 ≤ specularOf dx dy := by
  unfold specularOf
  split_ifs with h1 h2
  · exact pow_nonneg h2.le 20
  · exact le_refl 0
  · exact le_refl 0

/-- The real value fed to the int conversion of a channel is non-negative
whenever the base channel is. -/
theorem channelVal_nonneg (base : ℤ) (hb : 0 ≤ base) (dx dy : ℝ) :
    0 ≤ (base : ℝ) * lightIntensityOf dx dy + specularOf dx dy * 255 * 0.4 := by
  have h1 : (0 : ℝ) ≤ (base : ℝ) := by exact_mod_cast hb
  nlinarith [lightIntensityOf_ge dx dy, specularOf_nonneg dx dy]

/-- Two-sided rational bounds on the edge distance at pixel (123,63): the
value 255 * edge_dist there lies strictly between 126.5 and 127, so floor
and round disagree. -/
theorem edge_123_63_floor_round :
    ⌊255 * (RADIUS - Real.sqrt (distSq 123 63))⌋ = 126 ∧
    round (255 * (RADIUS - Real.sqrt (distSq 123 63))) = 127 := by
  have hd : distSq 123 63 = 3540.5 := by
    unfold distSq CENTER
    norm_num
  rw [hd]
  unfold RADIUS
  have h1 : (59.502 : ℝ) < Real.sqrt 3540.5 :=
    num_lt_sqrt 3540.5 59.502 (by norm_num) (by norm_num)
  have h2 : Real.sqrt 3540.5 < 59.5022 :=
    sqrt_lt_num 3540.5 59.5022 (by norm_num) (by norm_num) (by norm_num)
  constructor
  · rw [Int.floor_eq_iff]
    constructor <;> push_cast <;> nlinarith
  · rw [round_eq, Int.floor_eq_iff]
    constructor <;> push_cast <;> nlinarith

/-- With a non-negative base channel the int conversion of a channel value
is a floor. -/
theorem channelOf_floor (base : ℤ) (hb : 0 ≤ base) (dx dy : ℝ) :
    channelOf base dx dy =
      min 255 (max 0 ⌊(base : ℝ) * lightIntensityOf dx dy +
        specularOf dx dy * 255 * 0.4⌋) := by
  unfold channelOf
  rw [pyInt_of_nonneg _ (channelVal_nonneg base hb dx dy)]

/-- In the edge ring the alpha is the floor of 255 times the edge
distance. -/
theorem alphaOf_edge_floor (x y : ℕ)
    (hon : Real.sqrt (distSq x y) ≤ RADIUS)
    (hedge : RADIUS - Real.sqrt (distSq x y) < 1.0) :
    alphaOf ((x : ℝ) - CENTER) ((y : ℝ) - CENTER) =
      ⌊255 * (RADIUS - Real.sqrt (distSq x y))⌋ := by
  have hnn : 0 ≤ 255 * (RADIUS - Real.sqrt (distSq x y)) := by
    nlinarith [hon]
  unfold distSq at hon hedge hnn ⊢
  unfold alphaOf
  rw [if_pos hedge, pyInt_of_nonneg _ hnn]

/-- Away from the edge ring the alpha stays at 255. -/
theorem alphaOf_inner (x y : ℕ)
    (hedge : 1.0 ≤ RADIUS - Real.sqrt (distSq x y)) :
    alphaOf ((x : ℝ) - CENTER) ((y : ℝ) - CENTER) = 255 := by
  unfold distSq at hedge
  unfold alphaOf
  rw [if_neg (not_lt.mpr hedge)]

/-- C3: for every on-sphere pixel and base color, the conversion of each
computed floating-point RGB channel value and of the edge-alpha value
255*edge_dist to an integer truncates toward zero (a floor, the values
being non-negative) rather than rounding to nearest — at pixel (123,63)
floor and round of the alpha value disagree — and the truncated channel
value is then clamped to [0,255]. -/
theorem c3_int_conversion_truncates (r g b : ℤ)
    (hr : 0 ≤ r) (hg : 0 ≤ g) (hb : 0 ≤ b) (x y : ℕ)
    (hon : Real.sqrt (distSq x y) ≤ RADIUS) :
    ((generate_sphere (r, g, b) x y).r =
        min 255 (max 0 ⌊(r : ℝ) *
          lightIntensityOf ((x : ℝ) - CENTER) ((y : ℝ) - CENTER) +
          specularOf ((x : ℝ) - CENTER) ((y : ℝ) - CENTER) * 255 * 0.4⌋) ∧
     (generate_sphere (r, g, b) x y).g =
        min 255 (max 0 ⌊(g : ℝ) *
          lightIntensityOf ((x : ℝ) - CENTER) ((y : ℝ) - CENTER) +
          specularOf ((x : ℝ) - CENTER) ((y : ℝ) - CENTER) * 255 * 0.4⌋) ∧
     (generate_sphere (r, g, b) x y).b =
        min 255 (max 0 ⌊(b : ℝ) *
          lightIntensityOf ((x : ℝ) - CENTER) ((y : ℝ) - CENTER) +
          specularOf ((x : ℝ) - CENTER) ((y : ℝ) - CENTER) * 255 * 0.4⌋)) ∧
    (RADIUS - Real.sqrt (distSq x y) < 1.0 →
      (generate_sphere (r, g, b) x y).a =
        ⌊255 * (RADIUS - Real.sqrt (distSq x y))⌋) ∧
    ⌊255 * (RADIUS - Real.sqrt (distSq 123 63))⌋ ≠
      round (255 * (RADIUS - Real.sqrt (distSq 123 63))) := by
  rw [generate_sphere_on (r, g, b) x y ((sqrt_le_RADIUS_iff _).mp hon)]
  refine ⟨⟨channelOf_floor r hr _ _, channelOf_floor g hg _ _,
    channelOf_floor b hb _ _⟩, fun hedge => alphaOf_edge_floor x y hon hedge, ?_⟩
  rw [edge_123_63_floor_round.1, edge_123_63_floor_round.2]
  norm_num

/-- Witness for C3: the floor/round disagreement instantiated through the
theorem at base color (0,0,0) and pixel (63,63). -/
theorem c3_int_conversion_truncates_witness :
    ⌊255 * (RADIUS - Real.sqrt (distSq 123 63))⌋ ≠
      round (255 * (RADIUS - Real.sqrt (distSq 123 63))) := by
  have hon : Real.sqrt (distSq 63 63) ≤ RADIUS := by
    apply (sqrt_le_RADIUS_iff _).mpr
    unfold distSq CENTER RADIUS
    norm_num
  exact (c3_int_conversion_truncates 0 0 0 (by norm_num) (by norm_num)
    (by norm_num) 63 63 hon).2.2

/-- C4 counterexample: at pixel (123,63) (an on-sphere edge pixel with
edge_dist below one) the emitted alpha is 126, while round(255*edge_dist)
is 127, so the claim's round-to-nearest alpha is not what the code
produces. -/
theorem c4_round_alpha_counterexample :
    RADIUS - Real.sqrt (distSq 123 63) < 1.0 ∧
    Real.sqrt (distSq 123 63) ≤ RADIUS ∧
    (generate_sphere (0, 0, 0) 123 63).a = 126 ∧
    round (255 * (RADIUS - Real.sqrt (distSq 123 63))) = 127 := by
  have hd : distSq 123 63 = 3540.5 := by
    unfold distSq CENTER
    norm_num
  have h1 : (59.502 : ℝ) < Real.sqrt 3540.5 :=
    num_lt_sqrt 3540.5 59.502 (by norm_num) (by norm_num)
  have hon : Real.sqrt (distSq 123 63) ≤ RADIUS := by
    apply (sqrt_le_RADIUS_iff _).mpr
    rw [hd]
    unfold RADIUS
    norm_num
  have hedge : RADIUS - Real.sqrt (distSq 123 63) < 1.0 := by
    rw [hd]
    unfold RADIUS
    nlinarith
  refine ⟨hedge, hon, ?_, edge_123_63_floor_round.2⟩
  rw [generate_sphere_on (0, 0, 0) 123 63 ((sqrt_le_RADIUS_iff _).mp hon)]
  have ha := alphaOf_edge_floor 123 63 hon hedge
  rw [ha, edge_123_63_floor_round.1]

/-- C4 amended: for every on-sphere pixel with edge_dist below 1.0 the
output alpha equals the truncation int(255*edge_dist) (a floor, the value
being non-negative) — not the rounding to nearest — and for every on-sphere
pixel with edge_dist at least 1.0 the output alpha equals 255. -/
theorem c4_alpha_truncated_falloff (rgb : ℤ × ℤ × ℤ) (x y : ℕ)
    (hon : Real.sqrt (distSq x y) ≤ RADIUS) :
    (RADIUS - Real.sqrt (distSq x y) < 1.0 →
      (generate_sphere rgb x y).a =
        ⌊255 * (RADIUS - Real.sqrt (distSq x y))⌋) ∧
    (1.0 ≤ RADIUS - Real.sqrt (distSq x y) →
      (generate_sphere rgb x y).a = 255) := by
  rw [generate_sphere_on rgb x y ((sqrt_le_RADIUS_iff _).mp hon)]
  exact ⟨fun hedge => alphaOf_edge_floor x y hon hedge,
    fun hedge => alphaOf_inner x y hedge⟩

/-- Witness for the amended C4 at base color (9,9,9) and the interior pixel
(63,63). -/
theorem c4_alpha_truncated_falloff_witness :
    1.0 ≤ RADIUS - Real.sqrt (distSq 63 63) ∧
    (generate_sphere (9, 9, 9) 63 63).a = 255 := by
  have hd : distSq 63 63 = 0.5 := by
    unfold distSq CENTER
    norm_num
  have hs : Real.sqrt (distSq 63 63) < 1 := by
    rw [hd]
    exact sqrt_lt_num 0.5 1 (by norm_num) (by norm_num) (by norm_num)
  have hon : Real.sqrt (distSq 63 63) ≤ RADIUS := by
    apply (sqrt_le_RADIUS_iff _).mpr
    rw [hd]
    unfold RADIUS
    norm_num
  have hedge : 1.0 ≤ RADIUS - Real.sqrt (distSq 63 63) := by
    unfold RADIUS
    nlinarith [Real.sqrt_nonneg (distSq 63 63)]
  exact ⟨hedge, (c4_alpha_truncated_falloff (9, 9, 9) 63 63 hon).2 hedge⟩

/-- The buffer alpha is never negative, whatever the offset. -/
theorem alphaAtOffset_nonneg (dx dy : ℝ) : 0 ≤ alphaAtOffset dx dy := by
  unfold alphaAtOffset alphaOf
  split_ifs with h1 h2
  · exact le_refl 0
  · have hs : Real.sqrt (dx * dx + dy * dy) ≤ RADIUS :=
      (sqrt_le_RADIUS_iff _).mpr (not_lt.mp h1)
    rw [pyInt_of_nonneg _ (by nlinarith)]
    exact Int.floor_nonneg.mpr (by nlinarith)
  · norm_num

/-- Along a unit direction the alpha depends only on the distance from the
centre. -/
theorem alphaAtOffset_ray (ux uy d : ℝ) (h1 : ux * ux + uy * uy = 1)
    (hd : 0 ≤ d) :
    alphaAtOffset (d * ux) (d * uy) =
      if d * d > RADIUS * RADIUS then 0
      else if RADIUS - d < 1.0 then pyInt (255 * (RADIUS - d)) else 255 := by
  have hsq : (d * ux) * (d * ux) + (d * uy) * (d * uy) = d * d := by
    nlinarith [h1]
  unfold alphaAtOffset alphaOf
  rw [hsq, Real.sqrt_mul_self hd]

/-- C7: the buffer alpha is the offset-alpha of the pixel's planar offset,
and along any fixed unit direction from the sphere center the alpha is
non-decreasing as the planar distance decreases from radius+1 down to
radius-1. -/
theorem c7_alpha_monotone_along_ray :
    (∀ rgb : ℤ × ℤ × ℤ, ∀ x y : ℕ,
      (generate_sphere rgb x y).a =
        alphaAtOffset ((x : ℝ) - CENTER) ((y : ℝ) - CENTER)) ∧
    (∀ ux uy d1 d2 : ℝ, ux * ux + uy * uy = 1 →
      RADIUS - 1 ≤ d1 → d1 ≤ d2 → d2 ≤ RADIUS + 1 →
      alphaAtOffset (d2 * ux) (d2 * uy) ≤ alphaAtOffset (d1 * ux) (d1 * uy)) := by
  constructor
  · intro rgb x y
    rcases le_or_lt (distSq x y) (RADIUS * RADIUS) with h | h
    · rw [generate_sphere_on rgb x y h]
      unfold alphaAtOffset
      unfold distSq at h
      rw [if_neg (not_lt.mpr h)]
    · rw [generate_sphere_off rgb x y h]
      unfold alphaAtOffset
      unfold distSq at h
      rw [if_pos h]
  · intro ux uy d1 d2 h1 h59 h12 h61
    have hR : RADIUS = (60 : ℝ) := by
      unfold RADIUS
      norm_num
    rw [hR] at h59 h61
    have hd1 : (0 : ℝ) ≤ d1 := by linarith
    have hd2 : (0 : ℝ) ≤ d2 := by linarith
    rw [alphaAtOffset_ray ux uy d1 h1 hd1, alphaAtOffset_ray ux uy d2 h1 hd2,
      hR]
    rcases lt_or_le 60 d2 with h2out | h2in
    · rw [if_pos (show d2 * d2 > (60 : ℝ) * 60 by nlinarith)]
      split_ifs with ha hb
      · exact le_refl 0
      · have hle : d1 ≤ 60 := by nlinarith [not_lt.mp ha]
        rw [pyInt_of_nonneg _ (by nlinarith)]
        exact Int.floor_nonneg.mpr (by nlinarith)
      · norm_num
    · rw [if_neg (show ¬ d2 * d2 > (60 : ℝ) * 60 by nlinarith),
        if_neg (show ¬ d1 * d1 > (60 : ℝ) * 60 by nlinarith)]
      split_ifs with ha hb hb
      · rw [pyInt_of_nonneg _ (by nlinarith), pyInt_of_nonneg _ (by nlinarith)]
        exact Int.floor_le_floor (by nlinarith)
      · rw [pyInt_of_nonneg _ (by nlinarith)]
        calc ⌊(255 : ℝ) * (60 - d2)⌋ ≤ ⌊(255 : ℝ)⌋ :=
              Int.floor_le_floor (by nlinarith)
        _ = 255 := by norm_num
      · exact absurd hb (by push_neg; linarith [not_lt.mp ha])
      · exact le_refl 255

/-- Witness for C7 along the direction (1,0) with distances 59.5 and
60.5. -/
theorem c7_alpha_monotone_along_ray_witness :
    alphaAtOffset (60.5 * 1) (60.5 * 0) ≤ alphaAtOffset (59.5 * 1) (59.5 * 0) :=
  c7_alpha_monotone_along_ray.2 1 0 59.5 60.5 (by norm_num)
    (by unfold RADIUS; norm_num) (by norm_num) (by unfold RADIUS; norm_num)

/-- The raw light vector has squared length 1.14. -/
theorem len_l_eq : len_l = Real.sqrt 1.14 := by
  unfold len_l
  norm_num

/-- Rational bounds on the light-vector length. -/
theorem sqrt_114_bounds :
    (1.0677 : ℝ) < Real.sqrt 1.14 ∧ Real.sqrt 1.14 < 1.06772 :=
  ⟨num_lt_sqrt 1.14 1.0677 (by norm_num) (by norm_num),
   sqrt_lt_num 1.14 1.06772 (by norm_num) (by norm_num) (by norm_num)⟩

/-- Rational bounds on the sphere height at squared distance 2244.5. -/
theorem sqrt_1355_bounds :
    (36.817 : ℝ) < Real.sqrt 1355.5 ∧ Real.sqrt 1355.5 < 36.82 :=
  ⟨num_lt_sqrt 1355.5 36.817 (by norm_num) (by norm_num),
   sqrt_lt_num 1355.5 36.82 (by norm_num) (by norm_num) (by norm_num)⟩

/-- The sphere height at the (97,97)/(30,30) offsets. -/
theorem zOf_2244 : zOf 2244.5 = Real.sqrt 1355.5 := by
  unfold zOf RADIUS
  norm_num

/-- At offset (33.5,33.5) — the pixel (97,97) — the surface faces away from
the light and the diffuse term is exactly zero. -/
theorem diffuse_at_97 : diffuseOf (33.5 : ℝ) 33.5 = 0 := by
  unfold diffuseOf
  rw [show (33.5 : ℝ) * 33.5 + 33.5 * 33.5 = 2244.5 by norm_num, zOf_2244]
  apply max_eq_left
  unfold RADIUS LX LY LZ
  rw [len_l_eq]
  have h14 : (1.0677 : ℝ) < Real.sqrt 1.14 := sqrt_114_bounds.1
  have h1355 : Real.sqrt 1355.5 < 36.82 := sqrt_1355_bounds.2
  have key : (33.5 : ℝ) / 60.0 * (-0.5 / Real.sqrt 1.14) +
      33.5 / 60.0 * (-0.5 / Real.sqrt 1.14) +
      Real.sqrt 1355.5 / 60.0 * (0.8 / Real.sqrt 1.14) =
      (0.8 * Real.sqrt 1355.5 - 33.5) / (60.0 * Real.sqrt 1.14) := by
    field_simp
    ring
  rw [key]
  exact div_nonpos_iff.mpr (Or.inr ⟨by nlinarith, by positivity⟩)

/-- At offset (-33.5,-33.5) — the pixel (30,30) — the diffuse term lies
strictly between 0.9826 and 1. -/
theorem diffuse_at_30_bounds :
    (0.9826 : ℝ) < diffuseOf (-33.5 : ℝ) (-33.5) ∧
    diffuseOf (-33.5 : ℝ) (-33.5) < 1 := by
  unfold diffuseOf
  rw [show (-33.5 : ℝ) * (-33.5) + (-33.5) * (-33.5) = 2244.5 by norm_num,
    zOf_2244]
  unfold RADIUS LX LY LZ
  rw [len_l_eq]
  have h14l : (1.0677 : ℝ) < Real.sqrt 1.14 := sqrt_114_bounds.1
  have h14u : Real.sqrt 1.14 < 1.06772 := sqrt_114_bounds.2
  have h1355l : (36.817 : ℝ) < Real.sqrt 1355.5 := sqrt_1355_bounds.1
  have h1355u : Real.sqrt 1355.5 < 36.82 := sqrt_1355_bounds.2
  have key : (-33.5 : ℝ) / 60.0 * (-0.5 / Real.sqrt 1.14) +
      -33.5 / 60.0 * (-0.5 / Real.sqrt 1.14) +
      Real.sqrt 1355.5 / 60.0 * (0.8 / Real.sqrt 1.14) =
      (33.5 + 0.8 * Real.sqrt 1355.5) / (60.0 * Real.sqrt 1.14) := by
    field_simp
    ring
  rw [key]
  have hden : (0 : ℝ) < 60.0 * Real.sqrt 1.14 := by positivity
  have hlb : (0.9826 : ℝ) <
      (33.5 + 0.8 * Real.sqrt 1355.5) / (60.0 * Real.sqrt 1.14) := by
    rw [lt_div_iff₀ hden]
    nlinarith
  have hub : (33.5 + 0.8 * Real.sqrt 1355.5) / (60.0 * Real.sqrt 1.14) < 1 := by
    rw [div_lt_one hden]
    nlinarith
  exact ⟨lt_of_lt_of_le hlb (le_max_right 0 _), max_lt (by norm_num) hub⟩

/-- Pre-specular intensity at pixel (97,97): with a zero diffuse term each
channel is lit by the ambient floor alone. -/
theorem preSpecularSum_97 : preSpecularSum (255, 107, 53) 97 97 = 123 := by
  unfold preSpecularSum
  have hc : ((97 : ℕ) : ℝ) - CENTER = 33.5 := by
    unfold CENTER
    norm_num
  rw [hc]
  unfold channelNoSpec lightIntensityOf
  rw [diffuse_at_97]
  rw [show ((255 : ℤ) : ℝ) * (0.3 + 0 * 0.7) = 76.5 by norm_num,
    show ((107 : ℤ) : ℝ) * (0.3 + 0 * 0.7) = 32.1 by norm_num,
    show ((53 : ℤ) : ℝ) * (0.3 + 0 * 0.7) = 15.9 by norm_num,
    pyInt_of_nonneg _ (by norm_num : (0:ℝ) ≤ 76.5),
    pyInt_of_nonneg _ (by norm_num : (0:ℝ) ≤ 32.1),
    pyInt_of_nonneg _ (by norm_num : (0:ℝ) ≤ 15.9),
    show ⌊(76.5 : ℝ)⌋ = 76 by norm_num [Int.floor_eq_iff],
    show ⌊(32.1 : ℝ)⌋ = 32 by norm_num [Int.floor_eq_iff],
    show ⌊(15.9 : ℝ)⌋ = 15 by norm_num [Int.floor_eq_iff]]
  norm_num

/-- Pre-specular intensity at pixel (30,30) is at least 408. -/
theorem preSpecularSum_30_lb : 408 ≤ preSpecularSum (255, 107, 53) 30 30 := by
  unfold preSpecularSum
  have hc : ((30 : ℕ) : ℝ) - CENTER = -33.5 := by
    unfold CENTER
    norm_num
  rw [hc]
  unfold channelNoSpec lightIntensityOf
  have hdl : (0.9826 : ℝ) < diffuseOf (-33.5 : ℝ) (-33.5) :=
    diffuse_at_30_bounds.1
  have hdu : diffuseOf (-33.5 : ℝ) (-33.5) < 1 := diffuse_at_30_bounds.2
  have hr : pyInt (((255 : ℤ) : ℝ) * (0.3 + diffuseOf (-33.5 : ℝ) (-33.5) * 0.7)) =
      ⌊((255 : ℤ) : ℝ) * (0.3 + diffuseOf (-33.5 : ℝ) (-33.5) * 0.7)⌋ :=
    pyInt_of_nonneg _ (by nlinarith)
  have hg : pyInt (((107 : ℤ) : ℝ) * (0.3 + diffuseOf (-33.5 : ℝ) (-33.5) * 0.7)) =
      ⌊((107 : ℤ) : ℝ) * (0.3 + diffuseOf (-33.5 : ℝ) (-33.5) * 0.7)⌋ :=
    pyInt_of_nonneg _ (by nlinarith)
  have hb : pyInt (((53 : ℤ) : ℝ) * (0.3 + diffuseOf (-33.5 : ℝ) (-33.5) * 0.7)) =
      ⌊((53 : ℤ) : ℝ) * (0.3 + diffuseOf (-33.5 : ℝ) (-33.5) * 0.7)⌋ :=
    pyInt_of_nonneg _ (by nlinarith)
  rw [hr, hg, hb]
  have hrl : (251 : ℤ) ≤
      ⌊((255 : ℤ) : ℝ) * (0.3 + diffuseOf (-33.5 : ℝ) (-33.5) * 0.7)⌋ :=
    Int.le_floor.mpr (by push_cast; nlinarith)
  have hru : ⌊((255 : ℤ) : ℝ) * (0.3 + diffuseOf (-33.5 : ℝ) (-33.5) * 0.7)⌋ <
      255 := Int.floor_lt.mpr (by push_cast; nlinarith)
  have hgl : (105 : ℤ) ≤
      ⌊((107 : ℤ) : ℝ) * (0.3 + diffuseOf (-33.5 : ℝ) (-33.5) * 0.7)⌋ :=
    Int.le_floor.mpr (by push_cast; nlinarith)
  have hgu : ⌊((107 : ℤ) : ℝ) * (0.3 + diffuseOf (-33.5 : ℝ) (-33.5) * 0.7)⌋ <
      107 := Int.floor_lt.mpr (by push_cast; nlinarith)
  have hbl : (52 : ℤ) ≤
      ⌊((53 : ℤ) : ℝ) * (0.3 + diffuseOf (-33.5 : ℝ) (-33.5) * 0.7)⌋ :=
    Int.le_floor.mpr (by push_cast; nlinarith)
  have hbu : ⌊((53 : ℤ) : ℝ) * (0.3 + diffuseOf (-33.5 : ℝ) (-33.5) * 0.7)⌋ <
      53 := Int.floor_lt.mpr (by push_cast; nlinarith)
  omega

/-- C9: for base color (255,107,53), the pixel at (30,30) (facing the
light) has strictly higher pre-specular combined intensity R+G+B than the
pixel at (97,97) (facing away), and the pixel at (5,5), whose planar
distance from the center exceeds the radius, has alpha exactly 0. -/
theorem c9_concrete_scenario :
    preSpecularSum (255, 107, 53) 97 97 < preSpecularSum (255, 107, 53) 30 30 ∧
    (generate_sphere (255, 107, 53) 5 5).a = 0 := by
  constructor
  · rw [preSpecularSum_97]
    have := preSpecularSum_30_lb
    omega
  · have h : RADIUS * RADIUS < distSq 5 5 := by
      unfold distSq CENTER RADIUS
      norm_num
    rw [generate_sphere_off (255, 107, 53) 5 5 h]

/-- C5 counterexample: the eight-character string FF6B35AB is not six hex
digits after removing a leading hash, yet it parses to the Color
(255,107,53): the slicing in hex_to_rgb ignores every character past the
first six. -/
theorem c5_exactly_six_digits_counterexample :
    hex_to_rgb ['F', 'F', '6', 'B', '3', '5', 'A', 'B'] = some (255, 107, 53) ∧
    (['F', 'F', '6', 'B', '3', '5', 'A', 'B'].dropWhile
      (fun c => c = '#')).length = 8 := by
  constructor
  · decide
  · decide

/-- C5 amended: a color string parses to a Color exactly when each of the
three two-character slices at positions 0:2, 2:4 and 4:6 of the
hash-stripped string parses as a base-16 integer (so characters past the
sixth are ignored), and an entry whose processing fails is skipped while
the processing of the remaining entries continues. -/
theorem c5_parse_iff_slices_and_skip :
    (∀ l : List Char,
      (hex_to_rgb l).isSome ↔
        ((pyIntBase16 (pySlice (l.dropWhile (fun c => c = '#')) 0 2)).isSome ∧
         (pyIntBase16 (pySlice (l.dropWhile (fun c => c = '#')) 2 2)).isSome ∧
         (pyIntBase16 (pySlice (l.dropWhile (fun c => c = '#')) 4 2)).isSome)) ∧
    (∀ (l1 l2 : List Entry) (e : Entry), entryResult e = none →
      processEntries (l1 ++ e :: l2) = processEntries l1 ++ processEntries l2) := by
  constructor
  · intro l
    cases h1 : pyIntBase16 (pySlice (l.dropWhile (fun c => c = '#')) 0 2) <;>
      cases h2 : pyIntBase16 (pySlice (l.dropWhile (fun c => c = '#')) 2 2) <;>
      cases h3 : pyIntBase16 (pySlice (l.dropWhile (fun c => c = '#')) 4 2) <;>
      simp [hex_to_rgb, h1, h2, h3]
  · intro l1 l2 e h
    unfold processEntries
    rw [List.filterMap_append, List.filterMap_cons_none h]

/-- Witness for the amended C5: a malformed middle entry is skipped and the
entries around it are still processed. -/
theorem c5_parse_iff_slices_and_skip_witness :
    processEntries ([⟨some 1, some ['F', 'F', '6', 'B', '3', '5']⟩] ++
        (⟨some 2, some ['Z', 'Z']⟩ : Entry) ::
        [⟨some 3, some ['0', '0', 'F', 'F', '0', '0']⟩]) =
      processEntries [⟨some 1, some ['F', 'F', '6', 'B', '3', '5']⟩] ++
      processEntries [⟨some 3, some ['0', '0', 'F', 'F', '0', '0']⟩] :=
  c5_parse_iff_slices_and_skip.2
    [⟨some 1, some ['F', 'F', '6', 'B', '3', '5']⟩]
    [⟨some 3, some ['0', '0', 'F', 'F', '0', '0']⟩]
    ⟨some 2, some ['Z', 'Z']⟩ (by decide)
